import Mathlib

/-!
Verification development for the `node-ffmetadata` source file `src/index.ts`:
a shallow embedding of its argument builders, temp-path derivation, INI-style
decoder, encoder hooks, and the read/write process pipelines, together with
theorems about them.

JavaScript strings are modelled as Lean `String` (the inputs of interest are
ASCII, so JS code-unit indexing coincides with character indexing); JS objects
used as string-keyed dictionaries are modelled as insertion-ordered association
lists with in-place update; the Node `path` module (POSIX flavour) is modelled
for normalized paths without trailing slashes.
-/

namespace FFMetadata

/-- Options structure, from `OptionsInterface` in src/index.ts (lines 13-18).
`coverPath` is accessed by `getReadArgs` (line 177) although not declared in the
TS interface; `id3v23` stands for the TS field name string `id3v2.3`. -/
structure OptionsInterface where
  attachments : Option (List String) := none
  id3v1 : Bool := false
  id3v23 : Bool := false
  dryRun : Bool := false
  coverPath : Option String := none
deriving DecidableEq

/-- Metadata record with the recognized convenience fields, from
`MetadataInterface` in src/index.ts (lines 20-28). `none` models a field that is
absent / `undefined` / `null`. -/
structure MetadataInterface where
  artist : Option String := none
  album : Option String := none
  title : Option String := none
  track : Option String := none
  disk : Option String := none
  label : Option String := none
  date : Option String := none
deriving DecidableEq

/-- Concatenation of the lists produced by `f` over `l`, in order. Used to state
characterizations of the argument vectors built by fold/forEach loops. -/
def catMap (f : α → List β) : List α → List β
  | [] => []
  | x :: xs => f x ++ catMap f xs

/-- JS-object read `d[k]`: the value at the first (only) entry with key `k`,
`none` when the property is absent (`undefined`). -/
def jsObjGet (d : List (String × String)) (k : String) : Option String :=
  (d.find? (fun kv => kv.1 == k)).map (fun kv => kv.2)

/-- JS-object write `d[k] = v`: replaces the value at an existing key in place,
otherwise appends the new property at the end (JS insertion order). -/
def jsObjSet (d : List (String × String)) (k v : String) : List (String × String) :=
  match d with
  | [] => [(k, v)]
  | kv :: rest => if kv.1 = k then (k, v) :: rest else kv :: jsObjSet rest k v

/-- Replace the first occurrence of `pat` in a character list by `repl`,
leaving the list unchanged when `pat` does not occur. -/
def replaceFirstCharAux : List Char → Char → Char → List Char
  | [], _, _ => []
  | c :: cs, pat, repl => if c = pat then repl :: cs else c :: replaceFirstCharAux cs pat repl

/-- JS `s.replace(pat, repl)` with one-character string arguments: replaces only
the FIRST occurrence of `pat` (JS `String.prototype.replace` with a string
pattern is not global). Used at src/index.ts line 271. -/
def jsReplaceFirst (s : String) (pat repl : Char) : String :=
  String.mk (replaceFirstCharAux s.toList pat repl)

/-- JS `s.slice(0, -n)`: for `n > 0` the first `length - n` characters; for
`n = 0` the empty string, because `-0 === 0` makes it `s.slice(0, 0)`.
Used at src/index.ts line 167. -/
def jsSliceDropNeg (s : String) (n : Nat) : String :=
  if n = 0 then "" else String.mk (s.toList.take (s.toList.length - n))

/-- Split a character list at every occurrence of `sep`, keeping empty pieces,
like JS `String.prototype.split` with a one-character separator. -/
def splitOnCharAux (sep : Char) : List Char → List Char → List (List Char)
  | [], acc => [acc.reverse]
  | c :: cs, acc =>
    if c = sep then acc.reverse :: splitOnCharAux sep cs []
    else splitOnCharAux sep cs (c :: acc)

/-- The pieces of `s` between occurrences of `sep`, as strings. -/
def splitOnChar (s : String) (sep : Char) : List String :=
  (splitOnCharAux sep s.toList []).map String.mk

/-- Join a list of strings with `/` between consecutive elements. -/
def intercalateSlash : List String → String
  | [] => ""
  | [x] => x
  | x :: y :: xs => x ++ "/" ++ intercalateSlash (y :: xs)

/-- Node `path.basename` (POSIX) for normalized paths without trailing slash:
the component after the last separator. -/
def pathBasename (p : String) : String :=
  (splitOnChar p '/').getLastD p

/-- Node `path.dirname` (POSIX) for normalized paths without trailing slash:
everything before the last separator, `"."` when there is none, `"/"` for a
file directly under the root. -/
def pathDirname (p : String) : String :=
  let parts := splitOnChar p '/'
  if parts.length ≤ 1 then "."
  else
    let d := intercalateSlash parts.dropLast
    if d = "" then "/" else d

/-- Node `path.extname` (POSIX): the suffix of the basename from its last `.`
(inclusive); empty when the basename has no `.` or only a leading one. -/
def pathExtname (p : String) : String :=
  let b := (pathBasename p).toList
  match (b.enum.filter (fun ic => ic.2 == '.')).getLast? with
  | some (i, _) => if i = 0 then "" else String.mk (b.drop i)
  | none => ""

/-- Node `path.join` (POSIX) specialized to joining a `pathDirname` result with
a single name component. -/
def pathJoin (d n : String) : String :=
  if d = "" ∨ d = "." then n
  else if d = "/" then "/" ++ n
  else d ++ "/" ++ n

/-- Function `getTempPath` from src/index.ts (lines 165-172): sibling path built from the
source's directory, the basename with the extension sliced off via
`slice(0, -ext.length)`, the fixed infix `.ffmetadata`, and the extension. -/
def getTempPath (src : String) : String :=
  let ext := pathExtname src
  let basename := jsSliceDropNeg (pathBasename src) ext.toList.length
  let newName := basename ++ ".ffmetadata" ++ ext
  let dirname := pathDirname src
  pathJoin dirname newName

/-- Function `getReadArgs` from src/index.ts (lines 176-192). -/
def getReadArgs (src : String) (options : OptionsInterface) : List String :=
  match options.coverPath with
  | some cp => ["-i", src, cp]
  | none => ["-i", src, "-f", "ffmetadata", "pipe:1"]

/-- Function `getAttachments` from src/index.ts (lines 233-238): `options.attachments`
or the empty list. (The `Array.isArray(options)` branch handles a legacy JS
call shape not representable with `OptionsInterface`.) -/
def getAttachments (options : OptionsInterface) : List String :=
  options.attachments.getD []

/-- Function `escapeini` from src/index.ts (lines 283-286): the identity — the escape
hook is an empty `@TODO` stub in the source. -/
def escapeini (data : String) : String :=
  data

/-- Function `unescapeini` from src/index.ts (lines 288-291): the identity — the
unescape hook is an empty `@TODO` stub in the source. -/
def unescapeini (data : String) : String :=
  data

/-- One iteration of the attachment loop in `getWriteArgs` (src/index.ts lines
205-209): `inputIndex = inputs.length / 2` computed before the push, then
`inputs.push("-i", el)` and `maps.push("-map", inputIndex + ":0")`. -/
def attachStep (acc : List String × List String) (el : String) :
    List String × List String :=
  (acc.1 ++ ["-i", el], acc.2 ++ ["-map", toString (acc.1.length / 2) ++ ":0"])

/-- Function `getWriteArgs` from src/index.ts (lines 198-231). `data` is the metadata
record as an ordered list of own properties, matching `Object.keys` order. -/
def getWriteArgs (src dst : String) (data : List (String × String))
    (options : OptionsInterface) : List String :=
  let im := (getAttachments options).foldl attachStep (["-i", src], ["-map", "0:0"])
  let args := ["-y"] ++ im.1 ++ im.2 ++ ["-codec", "copy"]
  let args := if options.id3v1 then args ++ ["-write_id3v1", "1"] else args
  let args := if options.id3v23 then args ++ ["-id3v2_version", "3"] else args
  let args := data.foldl
    (fun a kv => a ++ ["-metadata", escapeini kv.1 ++ "=" ++ escapeini kv.2]) args
  args ++ [dst]

/-- The fixed tail of the write argument vector (codec directive, optional tag
flags, metadata directives, destination); statement helper for the
characterization of `getWriteArgs`. -/
def writeArgsTail (dst : String) (data : List (String × String))
    (options : OptionsInterface) : List String :=
  ["-codec", "copy"] ++
  (if options.id3v1 then ["-write_id3v1", "1"] else []) ++
  (if options.id3v23 then ["-id3v2_version", "3"] else []) ++
  catMap (fun kv => ["-metadata", escapeini kv.1 ++ "=" ++ escapeini kv.2]) data ++
  [dst]

/-- State of the streaming INI decoder built by `parseini` (src/index.ts lines
246-277): the accumulated object `stream.data` and the `key` variable, which is
`none` (JS `undefined`) until the first new-key line. -/
structure ParseiniState where
  data : List (String × String)
  key : Option String
deriving DecidableEq

/-- Function `isNotComment` from src/index.ts (lines 279-281): `data.slice(0, 1) !== ";"`. -/
def isNotComment (data : String) : Bool :=
  data.toList.take 1 != [';']

/-- Function `parseLine` from src/index.ts (lines 265-276). In the no-`=` branch the
source runs `stream.data[key] += data.slice(index + 1)` (with `index = -1`,
i.e. the whole line) followed by
`stream.data[key] = stream.data[key].replace("\x5c\x5c", "\n")`.
When `key` is still `undefined`, JS property lookup coerces it to the string
`"undefined"`, and `undefined + data` coerces the absent property to the string
`"undefined"` as well. -/
def parseLine (st : ParseiniState) (raw : String) : ParseiniState :=
  let data := unescapeini raw
  match data.toList.findIdx? (fun c => c == '=') with
  | none =>
    let k := st.key.getD "undefined"
    let old := (jsObjGet st.data k).getD "undefined"
    { st with data := jsObjSet st.data k (jsReplaceFirst (old ++ data) '\\' '\n') }
  | some index =>
    let k := String.mk (data.toList.take index)
    { data := jsObjSet st.data k (String.mk (data.toList.drop (index + 1))),
      key := some k }

/-- One line through the `parseini` pipeline (src/index.ts lines 247-252):
`split()` delivers the line, `filter(Boolean)` drops empty strings,
`filter(isNotComment)` drops comment lines, `through(parseLine)` updates the
state. -/
def iniStep (st : ParseiniState) (line : String) : ParseiniState :=
  if line = "" then st
  else if isNotComment line then parseLine st line
  else st

/-- The object accumulated by `parseini` over a full sequence of input lines,
starting from the empty object with no current key. -/
def parseiniData (lines : List String) : List (String × String) :=
  (lines.foldl iniStep ⟨[], none⟩).data

/-- Outcome of the external process for one invocation, as classified by the
handlers the source registers: either the `error` event of a failed spawn
(src/index.ts line 99) or the `close` event with an exit code (line 108).
Per the runner contract, a spawn failure is immediate and final. -/
inductive ProcOutcome where
  | spawnError (e : String)
  | exited (code : Int)
deriving DecidableEq

/-- Observable side effects of one read/write invocation: process spawn with
its argument vector, `fs.unlink` of a path, `fs.rename` from a path to a path.
Each constructor records that the corresponding call was issued. -/
inductive Effect where
  | spawned (args : List String)
  | unlinked (p : String)
  | renamed (fromPath toPath : String)
deriving DecidableEq

/-- Environment of one `write` invocation: the process outcome, the buffered
stderr body, the result of `fs.rename` (`none` = success), and the result of
`fs.unlink`. The unlink result is recorded but never read, because the
`handleError` callback at src/index.ts line 134 ignores its error argument. -/
structure WriteEnv where
  outcome : ProcOutcome
  stderrBody : String
  renameErr : Option String
  unlinkErr : Option String
deriving DecidableEq

/-- Result delivered by a `write` invocation to its caller: the raw argument
vector (dryRun), the `end` event of a committed write (which carries no
payload), or an `error` event with the surfaced error. -/
inductive WriteResult where
  | args (a : List String)
  | ended
  | errored (e : String)
deriving DecidableEq

/-- Function `write` from src/index.ts (lines 81-161): computes the temp path and the
argument vector, returns them on `dryRun` (lines 90-92) before any spawn;
otherwise the registered handlers yield — on spawn error, an `error` event with
no filesystem call (line 99); on `close` with code 0, `finish()` renames the
temp over the source and emits `end`, or routes a rename failure through
`handleError` (lines 139-148); on nonzero code, `handleError` unlinks the temp
(ignoring the unlink outcome) and surfaces the buffered stderr (lines 133-137). -/
def write (src : String) (data : List (String × String)) (options : OptionsInterface)
    (env : WriteEnv) : WriteResult × List Effect :=
  let dst := getTempPath src
  let args := getWriteArgs src dst data options
  if options.dryRun then (WriteResult.args args, [])
  else
    match env.outcome with
    | ProcOutcome.spawnError e => (WriteResult.errored e, [Effect.spawned args])
    | ProcOutcome.exited code =>
      if code = 0 then
        match env.renameErr with
        | none => (WriteResult.ended, [Effect.spawned args, Effect.renamed dst src])
        | some e =>
          (WriteResult.errored e,
           [Effect.spawned args, Effect.renamed dst src, Effect.unlinked dst])
      else
        (WriteResult.errored env.stderrBody,
         [Effect.spawned args, Effect.unlinked dst])

/-- Environment of one `read` invocation: process outcome, the lines the
process wrote to stdout, and the buffered stderr body. -/
structure ReadEnv where
  outcome : ProcOutcome
  stdoutLines : List String
  stderrBody : String
deriving DecidableEq

/-- Result delivered by a `read` invocation: the raw argument vector (dryRun),
the decoded metadata object (the payload of the `metadata` event emitted at
src/index.ts line 58), or an `error` event. -/
inductive ReadOutcome where
  | args (a : List String)
  | metadata (m : List (String × String))
  | errored (e : String)
deriving DecidableEq

/-- Function `read` from src/index.ts (lines 30-79): computes the argument vector,
returns it on `dryRun` (lines 38-40) before any spawn; otherwise spawns, pipes
stdout through the `parseini` decoder, and on `close` emits the decoded object
(code 0) or an error carrying the buffered stderr. `read` issues no filesystem
calls. -/
def read (src : String) (options : OptionsInterface) (env : ReadEnv) :
    ReadOutcome × List Effect :=
  let args := getReadArgs src options
  if options.dryRun then (ReadOutcome.args args, [])
  else
    match env.outcome with
    | ProcOutcome.spawnError e => (ReadOutcome.errored e, [Effect.spawned args])
    | ProcOutcome.exited code =>
      if code = 0 then
        (ReadOutcome.metadata (parseiniData env.stdoutLines), [Effect.spawned args])
      else
        (ReadOutcome.errored env.stderrBody, [Effect.spawned args])

/-- A fresh `through()` stream (src/index.ts line 95) defines none of the
metadata-named properties, so reading any of them yields `undefined`, and
`stream.X || null` is `null` (modelled `none`). -/
def streamMetadataProp (_field : String) : Option String :=
  none

/-- The record `rt` returned synchronously by `write` (src/index.ts lines
150-160): every convenience field is read off the fresh `through()` stream. -/
def writeReturnRecord : MetadataInterface :=
  { album := streamMetadataProp "album", artist := streamMetadataProp "artist",
    date := streamMetadataProp "date", disk := streamMetadataProp "disk",
    label := streamMetadataProp "label", title := streamMetadataProp "title",
    track := streamMetadataProp "track" }

/-- The spec's "filename stem": the source's basename with its extension
removed. Statement helper following the spec's words, for comparison with the
temp path the source derives. -/
def specFilenameStem (p : String) : String :=
  String.mk
    ((pathBasename p).toList.take
      ((pathBasename p).toList.length - (pathExtname p).toList.length))

/-! ## Theorems -/

/-- A nonempty string has nonzero length. -/
theorem string_length_ne_zero {s : String} (h : s ≠ "") : s.length ≠ 0 := by
  intro hl
  apply h
  cases s with
  | mk data =>
    cases data with
    | nil => rfl
    | cons c cs => simp [String.length] at hl

/-- Folding the attachment loop from an accumulator holding `n` inputs appends
one `-i` directive per attachment to the inputs and one `-map k:0` directive,
`k` counting up from `n`, to the maps. -/
theorem attachStep_foldl (atts : List String) (inp maps : List String) (n : Nat)
    (h : inp.length = 2 * n) :
    atts.foldl attachStep (inp, maps) =
      (inp ++ catMap (fun a => ["-i", a]) atts,
       maps ++ catMap (fun k => ["-map", toString k ++ ":0"]) (List.range' n atts.length)) := by
  induction atts generalizing inp maps n with
  | nil => simp [catMap]
  | cons a rest ih =>
    have hdiv : inp.length / 2 = n := by omega
    have hstep : attachStep (inp, maps) a =
        (inp ++ ["-i", a], maps ++ ["-map", toString n ++ ":0"]) := by
      simp [attachStep, hdiv]
    have hlen : (inp ++ ["-i", a]).length = 2 * (n + 1) := by
      simp [h]
      omega
    rw [List.foldl_cons, hstep, ih (inp ++ ["-i", a]) _ (n + 1) hlen]
    simp [catMap, List.length_cons, List.range'_succ]

/-- The metadata `forEach` loop appends one `-metadata` directive per own key,
in record order, to the accumulated argument list. -/
theorem foldl_metadata_append (data : List (String × String)) (init : List String) :
    data.foldl
        (fun a kv => a ++ ["-metadata", escapeini kv.1 ++ "=" ++ escapeini kv.2]) init =
      init ++ catMap (fun kv => ["-metadata", escapeini kv.1 ++ "=" ++ escapeini kv.2]) data := by
  induction data generalizing init with
  | nil => simp [catMap]
  | cons kv rest ih => simp [catMap, ih]

/-- Full characterization of the write argument vector: `-y`; the grouped
inputs (source first, then the attachments in order); the grouped mapping
directives (`-map 0:0`, then `-map k:0` for `k = 1..N`); then the fixed tail. -/
theorem getWriteArgs_characterization (src dst : String) (data : List (String × String))
    (options : OptionsInterface) :
    getWriteArgs src dst data options =
      ["-y", "-i", src] ++ catMap (fun a => ["-i", a]) (getAttachments options) ++
      ["-map", "0:0"] ++
      catMap (fun k => ["-map", toString k ++ ":0"])
        (List.range' 1 (getAttachments options).length) ++
      writeArgsTail dst data options := by
  have hfold := attachStep_foldl (getAttachments options) ["-i", src] ["-map", "0:0"] 1 rfl
  by_cases h1 : options.id3v1 <;> by_cases h2 : options.id3v23 <;>
    simp [getWriteArgs, writeArgsTail, hfold, h1, h2, foldl_metadata_append]

/-- C4: for every read call, with `coverPath` set the argument vector is
`["-i", src, coverPath]`; otherwise it is
`["-i", src, "-f", "ffmetadata", "pipe:1"]`. -/
theorem c4_read_args (src : String) (options : OptionsInterface) :
    (∀ cp, options.coverPath = some cp → getReadArgs src options = ["-i", src, cp]) ∧
    (options.coverPath = none →
      getReadArgs src options = ["-i", src, "-f", "ffmetadata", "pipe:1"]) := by
  constructor
  · intro cp h
    simp [getReadArgs, h]
  · intro h
    simp [getReadArgs, h]

/-- Witness for `c4_read_args` at concrete inputs. -/
theorem c4_read_args_witness :
    getReadArgs "a.mp3" { coverPath := some "c.png" } = ["-i", "a.mp3", "c.png"] ∧
    getReadArgs "a.mp3" {} = ["-i", "a.mp3", "-f", "ffmetadata", "pipe:1"] :=
  ⟨(c4_read_args "a.mp3" { coverPath := some "c.png" }).1 "c.png" rfl,
   (c4_read_args "a.mp3" {}).2 rfl⟩

/-- C8, behavior of the code at the failing inputs: `escapeini` is the identity
(an empty `@TODO` stub), so a key or value containing `=`, a newline, or a
leading `;` passes through entirely unescaped, contradicting the claim that the
encoder output differs from such inputs. -/
theorem c8_escapeini_is_identity :
    escapeini "a=b" = "a=b" ∧ escapeini "a\nb" = "a\nb" ∧ escapeini ";ab" = ";ab" :=
  ⟨rfl, rfl, rfl⟩

/-- C7, behavior of the code at the failing input: a continuation line arriving
before any key is silently absorbed rather than surfaced as an error — the
`undefined` key is coerced to the property name `"undefined"` and the pair
`("undefined", "undefinedabc")` is stored, with the decode completing normally
and the current key still unset. -/
theorem c7_continuation_before_key_absorbed :
    parseiniData ["abc"] = [("undefined", "undefinedabc")] ∧
    (List.foldl iniStep ⟨[], none⟩ ["abc"]).key = none :=
  ⟨rfl, rfl⟩

/-- C10, behavior of the code at the failing input: a successful non-dryRun
`write("song.mp3", record with title "Test", {})` delivers only the bare `end`
event, whose constructor carries no metadata payload, and the synchronously
returned record reads nonexistent stream properties, so its title field is null
rather than the input value "Test". -/
theorem c10_write_does_not_echo :
    (write "song.mp3" [("title", "Test")] {} ⟨ProcOutcome.exited 0, "", none, none⟩).1 =
      WriteResult.ended ∧
    writeReturnRecord.title = none ∧ writeReturnRecord.title ≠ some "Test" :=
  ⟨rfl, rfl, by simp [writeReturnRecord, streamMetadataProp]⟩

/-- C9: for every read or write call with `dryRun` set, no process is spawned
and no filesystem call is issued (the effect list is empty), and the returned
value is exactly the argument vector the builder would have used. -/
theorem c9_dry_run_purity (src : String) (data : List (String × String))
    (options : OptionsInterface) (renv : ReadEnv) (wenv : WriteEnv)
    (h : options.dryRun = true) :
    read src options renv = (ReadOutcome.args (getReadArgs src options), []) ∧
    write src data options wenv =
      (WriteResult.args (getWriteArgs src (getTempPath src) data options), []) := by
  constructor
  · simp [read, h]
  · simp [write, h]

/-- Witness for `c9_dry_run_purity` at concrete inputs. -/
theorem c9_dry_run_purity_witness :
    ({ dryRun := true } : OptionsInterface).dryRun = true ∧
    read "a.mp3" { dryRun := true } ⟨ProcOutcome.exited 0, [], ""⟩ =
      (ReadOutcome.args (getReadArgs "a.mp3" { dryRun := true }), []) ∧
    write "a.mp3" [("title", "T")] { dryRun := true }
        ⟨ProcOutcome.exited 0, "", none, none⟩ =
      (WriteResult.args
        (getWriteArgs "a.mp3" (getTempPath "a.mp3") [("title", "T")]
          { dryRun := true }), []) :=
  ⟨rfl,
   (c9_dry_run_purity "a.mp3" [("title", "T")] { dryRun := true }
     ⟨ProcOutcome.exited 0, [], ""⟩ ⟨ProcOutcome.exited 0, "", none, none⟩ rfl).1,
   (c9_dry_run_purity "a.mp3" [("title", "T")] { dryRun := true }
     ⟨ProcOutcome.exited 0, [], ""⟩ ⟨ProcOutcome.exited 0, "", none, none⟩ rfl).2⟩

/-- C1 counterexample: on a spawn error the source's `proc.on("error")` handler
forwards the error straight to the stream without calling `handleError`, so the
temp path `song.ffmetadata.mp3` is NOT removed — the only effect is the spawn
attempt — contradicting the claim that a spawn error leads to removal of the
temp path. -/
theorem c1_counterexample :
    write "song.mp3" [] {} ⟨ProcOutcome.spawnError "spawn ffmpeg ENOENT", "", none, none⟩ =
      (WriteResult.errored "spawn ffmpeg ENOENT",
        [Effect.spawned ["-y", "-i", "song.mp3", "-map", "0:0", "-codec", "copy",
          "song.ffmetadata.mp3"]]) ∧
    Effect.unlinked "song.ffmetadata.mp3" ∉
      (write "song.mp3" [] {}
        ⟨ProcOutcome.spawnError "spawn ffmpeg ENOENT", "", none, none⟩).2 := by
  constructor
  · rfl
  · decide

/-- C1 as amended: every non-dryRun write ends in exactly one terminal outcome —
on exit code 0 with a successful rename the temp path is renamed over the source
and `end` is emitted (Committed); on a rename failure the temp path is removed
and the rename error surfaced; on nonzero exit the temp path is removed and the
buffered stderr surfaced (RolledBack; in both rollback cases the unlink outcome
is ignored, so a removal failure is swallowed); on a spawn error the error is
surfaced directly without any filesystem call. No case reports success after a
failed rename, and the four cases are exhaustive and mutually exclusive. -/
theorem c1_write_terminal_outcomes (src : String) (data : List (String × String))
    (options : OptionsInterface) (env : WriteEnv) (h : options.dryRun = false) :
    (∀ e, env.outcome = ProcOutcome.spawnError e →
      write src data options env =
        (WriteResult.errored e,
         [Effect.spawned (getWriteArgs src (getTempPath src) data options)])) ∧
    (∀ code, env.outcome = ProcOutcome.exited code → code ≠ 0 →
      write src data options env =
        (WriteResult.errored env.stderrBody,
         [Effect.spawned (getWriteArgs src (getTempPath src) data options),
          Effect.unlinked (getTempPath src)])) ∧
    (env.outcome = ProcOutcome.exited 0 → env.renameErr = none →
      write src data options env =
        (WriteResult.ended,
         [Effect.spawned (getWriteArgs src (getTempPath src) data options),
          Effect.renamed (getTempPath src) src])) ∧
    (∀ e, env.outcome = ProcOutcome.exited 0 → env.renameErr = some e →
      write src data options env =
        (WriteResult.errored e,
         [Effect.spawned (getWriteArgs src (getTempPath src) data options),
          Effect.renamed (getTempPath src) src,
          Effect.unlinked (getTempPath src)])) := by
  refine ⟨?_, ?_, ?_, ?_⟩
  · intro e he
    simp [write, h, he]
  · intro code he hc
    simp [write, h, he, hc]
  · intro he hr
    simp [write, h, he, hr]
  · intro e he hr
    simp [write, h, he, hr]

/-- Witness for `c1_write_terminal_outcomes` at a concrete successful write. -/
theorem c1_write_terminal_outcomes_witness :
    ({} : OptionsInterface).dryRun = false ∧
    write "song.mp3" [] {} ⟨ProcOutcome.exited 0, "", none, none⟩ =
      (WriteResult.ended,
       [Effect.spawned (getWriteArgs "song.mp3" (getTempPath "song.mp3") [] {}),
        Effect.renamed (getTempPath "song.mp3") "song.mp3"]) :=
  ⟨rfl,
   (c1_write_terminal_outcomes "song.mp3" [] {}
     ⟨ProcOutcome.exited 0, "", none, none⟩ rfl).2.2.1 rfl rfl⟩

/-- C6 counterexample: with current key `k` holding `""`, the continuation line
`x\y\z` (two escaped-newline markers) is appended whole, but only the FIRST
backslash of the accumulated value is translated to a line break — JS
`String.replace` with a string pattern is not global — so the stored value is
`x<newline>y\z`, not the `x<newline>y<newline>z` the claim requires. -/
theorem c6_counterexample :
    iniStep ⟨[("k", "")], some "k"⟩ "x\\y\\z" = ⟨[("k", "x\ny\\z")], some "k"⟩ ∧
    ("x\ny\\z" : String) ≠ "x\ny\nz" :=
  ⟨rfl, by decide⟩

/-- C6 as amended: for every continuation line arriving while a key is current
(and that key is present in the accumulated object), the decoder appends the
line's entire content to the key's value and then translates only the FIRST
escaped-newline marker of the resulting accumulated value (if any) into a line
break, leaving any later markers as-is. -/
theorem c6_continuation_append (st : ParseiniState) (l k old : String)
    (hl : l ≠ "") (hc : isNotComment l = true)
    (heq : l.toList.findIdx? (fun c => c == '=') = none)
    (hk : st.key = some k) (hold : jsObjGet st.data k = some old) :
    iniStep st l =
      { st with data := jsObjSet st.data k (jsReplaceFirst (old ++ l) '\\' '\n') } := by
  simp only [String.toList] at heq
  simp [iniStep, hl, hc, parseLine, unescapeini, String.toList, heq, hk, hold]

/-- Witness for `c6_continuation_append` at a concrete continuation. -/
theorem c6_continuation_append_witness :
    iniStep ⟨[("t", "a")], some "t"⟩ "b" = ⟨[("t", "ab")], some "t"⟩ :=
  c6_continuation_append ⟨[("t", "a")], some "t"⟩ "b" "t" "a"
    (by decide) rfl rfl rfl rfl

/-- C2: for every write call with N attachments, the argument vector contains
one `-i` input directive per attachment in the order supplied, and the mapping
directives are `-map 0:0` for the source followed by `-map k:0` for
`k = 1..N`, binding the attachments' inputs in their given order. -/
theorem c2_attachment_indexing (src dst : String) (data : List (String × String))
    (options : OptionsInterface) :
    getWriteArgs src dst data options =
      ["-y", "-i", src] ++ catMap (fun a => ["-i", a]) (getAttachments options) ++
      ["-map", "0:0"] ++
      catMap (fun k => ["-map", toString k ++ ":0"])
        (List.range' 1 (getAttachments options).length) ++
      writeArgsTail dst data options :=
  getWriteArgs_characterization src dst data options

/-- C3 counterexample: with one attachment the source groups all inputs before
all mapping directives (`-y -i src -i att -map 0:0 -map 1:0 ...`), not the
claimed interleaved `-y -i src -map 0:0 -i att -map 1:0 ...`; and for the
extension-less source `"song"` the temp path is `".ffmetadata"` — the stem is
lost to `slice(0, -0)` — not the claimed `"song.ffmetadata"`. -/
theorem c3_counterexample :
    getWriteArgs "song.mp3" "t.mp3" [] { attachments := some ["c.jpg"] } =
      ["-y", "-i", "song.mp3", "-i", "c.jpg", "-map", "0:0", "-map", "1:0",
       "-codec", "copy", "t.mp3"] ∧
    getWriteArgs "song.mp3" "t.mp3" [] { attachments := some ["c.jpg"] } ≠
      ["-y", "-i", "song.mp3", "-map", "0:0", "-i", "c.jpg", "-map", "1:0",
       "-codec", "copy", "t.mp3"] ∧
    getTempPath "song" = ".ffmetadata" ∧
    (".ffmetadata" : String) ≠ "song.ffmetadata" :=
  ⟨rfl, by decide, rfl, by decide⟩

/-- C3 as amended: the argument vector is `-y`; all inputs grouped (`-i src`
then each attachment's `-i path` in order); all mapping directives grouped
(`-map 0:0` then `-map k:0` for `k = 1..N`); `-codec copy`; `-write_id3v1 1`
iff id3v1; `-id3v2_version 3` iff id3v2.3; one `-metadata` directive per
metadata key in record order; and finally the destination temp path, which for
a source whose basename has an extension equals the source's directory joined
with the filename stem, the fixed infix `.ffmetadata`, and the extension. -/
theorem c3_write_args_order (src : String) (data : List (String × String))
    (options : OptionsInterface) (hext : pathExtname src ≠ "") :
    getTempPath src =
      pathJoin (pathDirname src)
        (specFilenameStem src ++ ".ffmetadata" ++ pathExtname src) ∧
    getWriteArgs src (getTempPath src) data options =
      ["-y", "-i", src] ++ catMap (fun a => ["-i", a]) (getAttachments options) ++
      ["-map", "0:0"] ++
      catMap (fun k => ["-map", toString k ++ ":0"])
        (List.range' 1 (getAttachments options).length) ++
      ["-codec", "copy"] ++
      (if options.id3v1 then ["-write_id3v1", "1"] else []) ++
      (if options.id3v23 then ["-id3v2_version", "3"] else []) ++
      catMap (fun kv => ["-metadata", escapeini kv.1 ++ "=" ++ escapeini kv.2]) data ++
      [getTempPath src] := by
  constructor
  · have hn : (pathExtname src).length ≠ 0 := string_length_ne_zero hext
    simp [getTempPath, jsSliceDropNeg, specFilenameStem, hn]
  · have h := getWriteArgs_characterization src (getTempPath src) data options
    simpa [writeArgsTail, List.append_assoc] using h

/-- Witness for `c3_write_args_order` at a concrete source path. -/
theorem c3_write_args_order_witness :
    pathExtname "song.mp3" ≠ "" ∧
    getTempPath "song.mp3" =
      pathJoin (pathDirname "song.mp3")
        (specFilenameStem "song.mp3" ++ ".ffmetadata" ++ pathExtname "song.mp3") :=
  ⟨by decide, (c3_write_args_order "song.mp3" [] {} (by decide)).1⟩

/-- Overwrite: reading the key just set yields exactly the value just set. -/
theorem jsObjGet_jsObjSet (d : List (String × String)) (k v : String) :
    jsObjGet (jsObjSet d k v) k = some v := by
  induction d with
  | nil => simp [jsObjSet, jsObjGet]
  | cons kv rest ih =>
    by_cases h : kv.1 = k
    · simp [jsObjSet, h, jsObjGet]
    · simpa [jsObjSet, h, jsObjGet] using ih

/-- A key of the updated object is a key of the original object or the key
just set. -/
theorem mem_keys_jsObjSet {d : List (String × String)} {k v a : String}
    (h : a ∈ (jsObjSet d k v).map Prod.fst) : a ∈ d.map Prod.fst ∨ a = k := by
  induction d with
  | nil =>
    simp [jsObjSet] at h
    exact Or.inr h
  | cons kv rest ih =>
    by_cases hk : kv.1 = k
    · simp only [jsObjSet, if_pos hk, List.map_cons, List.mem_cons] at h
      rcases h with h | h
      · exact Or.inr h
      · exact Or.inl (by simp [h])
    · simp only [jsObjSet, if_neg hk, List.map_cons, List.mem_cons] at h
      rcases h with h | h
      · exact Or.inl (by simp [h])
      · rcases ih h with h2 | h2
        · exact Or.inl (by simp [h2])
        · exact Or.inr h2

/-- Updating via `jsObjSet` preserves distinctness of the object's keys. -/
theorem nodup_keys_jsObjSet {d : List (String × String)} (k v : String)
    (h : (d.map Prod.fst).Nodup) : ((jsObjSet d k v).map Prod.fst).Nodup := by
  induction d with
  | nil => simp [jsObjSet]
  | cons kv rest ih =>
    simp only [List.map_cons, List.nodup_cons] at h
    by_cases hk : kv.1 = k
    · simp only [jsObjSet, if_pos hk, List.map_cons, List.nodup_cons]
      exact ⟨by rw [← hk]; exact h.1, h.2⟩
    · simp only [jsObjSet, if_neg hk, List.map_cons, List.nodup_cons]
      refine ⟨?_, ih h.2⟩
      intro hmem
      rcases mem_keys_jsObjSet hmem with h2 | h2
      · exact h.1 h2
      · exact hk h2

/-- Both branches of `parseLine` store through `jsObjSet`. -/
theorem parseLine_data (st : ParseiniState) (raw : String) :
    ∃ k v, (parseLine st raw).data = jsObjSet st.data k v := by
  unfold parseLine
  cases hidx : (unescapeini raw).toList.findIdx? (fun c => c == '=') with
  | none =>
    simp only [hidx]
    exact ⟨_, _, rfl⟩
  | some i =>
    simp only [hidx]
    exact ⟨_, _, rfl⟩

/-- One decoder step preserves distinctness of the accumulated keys. -/
theorem nodup_keys_iniStep (st : ParseiniState) (l : String)
    (h : (st.data.map Prod.fst).Nodup) :
    ((iniStep st l).data.map Prod.fst).Nodup := by
  unfold iniStep
  split
  · exact h
  split
  · obtain ⟨k, v, hkv⟩ := parseLine_data st l
    rw [hkv]
    exact nodup_keys_jsObjSet k v h
  · exact h

/-- The whole decode preserves distinctness of the accumulated keys. -/
theorem nodup_keys_foldl (lines : List String) (st : ParseiniState)
    (h : (st.data.map Prod.fst).Nodup) :
    ((lines.foldl iniStep st).data.map Prod.fst).Nodup := by
  induction lines generalizing st with
  | nil => exact h
  | cons l rest ih => exact ih (iniStep st l) (nodup_keys_iniStep st l h)

/-- C5: the decoder skips blank lines and comment lines; a line containing `=`
stores everything before the first `=` as the key and everything after as the
value, making that key current; storing overwrites any prior value held for
the key; and the resulting map never holds two values for one key (its key
list is duplicate-free). -/
theorem c5_decoder_semantics (lines : List String) :
    (∀ st l, l = "" ∨ isNotComment l = false → iniStep st l = st) ∧
    (∀ st l i, l ≠ "" → isNotComment l = true →
      l.toList.findIdx? (fun c => c == '=') = some i →
      iniStep st l =
        ⟨jsObjSet st.data (String.mk (l.toList.take i))
          (String.mk (l.toList.drop (i + 1))),
         some (String.mk (l.toList.take i))⟩) ∧
    (∀ d k v, jsObjGet (jsObjSet d k v) k = some v) ∧
    ((parseiniData lines).map Prod.fst).Nodup := by
  refine ⟨?_, ?_, ?_, ?_⟩
  · intro st l h
    rcases h with h | h
    · simp [iniStep, h]
    · by_cases hl : l = "" <;> simp [iniStep, hl, h]
  · intro st l i hl hc hidx
    simp only [String.toList] at hidx
    simp [iniStep, hl, hc, parseLine, unescapeini, String.toList, hidx]
  · intro d k v
    exact jsObjGet_jsObjSet d k v
  · exact nodup_keys_foldl lines ⟨[], none⟩ (by simp)

/-- Witness for `c5_decoder_semantics` at concrete lines. -/
theorem c5_decoder_semantics_witness :
    iniStep ⟨[], none⟩ "" = ⟨[], none⟩ ∧
    iniStep ⟨[], none⟩ "title=T" = ⟨[("title", "T")], some "title"⟩ :=
  ⟨(c5_decoder_semantics []).1 ⟨[], none⟩ "" (Or.inl rfl),
   (c5_decoder_semantics []).2.1 ⟨[], none⟩ "title=T" 5 (by decide) rfl rfl⟩

end FFMetadata
